import Mathlib

/-!
Shallow embedding of the HTTP/1.1 server in `app/server.go` (the revision
defining `handleGetRequest`, `WriteToConn`, `responseContent`, etc.).

Go strings are byte sequences; we model them as `List Nat`, one `Nat` per
byte, so that lengths are byte lengths and arbitrary (non-text) bytes are
representable.  `strings.Split` with the one-byte separator `" "` and the
two-byte separators `"\r\n"` and `": "` is modelled by `splitSep1` and
`splitSep2` (leftmost-match, exactly Go's semantics).  The Go
`map[string]string` is modelled as an association list with
replace-on-duplicate insertion (`hset`) and zero-value lookup (`hget`),
matching Go's last-write-wins maps and `m[k]` returning `""` when absent.

File I/O (`os.ReadFile`) is an external collaborator: it is modelled as a
function `GoStr → Option GoStr` from path to contents, `none` meaning any
read error.  The socket is modelled by its byte streams: the parser takes
the byte string `string(buf)` produced by the single fixed-size read
(8192 bytes, zero-padded), and the serializer returns the byte string the
sequence of `conn.Write` calls emits.
-/

namespace HttpSrv

/-- Byte strings: one `Nat` per byte. -/
abbrev GoStr := List Nat

/-- Bytes of an ASCII string literal. -/
def bytes (s : String) : GoStr := s.data.map Char.toNat

/-- Carriage-return byte. -/
def CRb : Nat := 13

/-- Line-feed byte. -/
def LFb : Nat := 10

/-- Space byte. -/
def SPb : Nat := 32

/-- Colon byte. -/
def COLb : Nat := 58

/-- Go `strings.Split(s, sep)` for a one-byte separator `c`. -/
def splitSep1 (c : Nat) : GoStr → List GoStr
  | [] => [[]]
  | x :: xs =>
    if x = c then [] :: splitSep1 c xs
    else
      match splitSep1 c xs with
      | [] => [[x]]
      | y :: ys => (x :: y) :: ys

/-- Go `strings.Split(s, sep)` for a two-byte separator `a b`
(leftmost non-overlapping match, as `strings.Split` does). -/
def splitSep2 (a b : Nat) : GoStr → List GoStr
  | [] => [[]]
  | [x] => [[x]]
  | x :: y :: xs =>
    if x = a ∧ y = b then [] :: splitSep2 a b xs
    else
      match splitSep2 a b (y :: xs) with
      | [] => [[x]]
      | z :: zs => (x :: z) :: zs

/-- Whether the two-byte sequence `a b` occurs in a byte string
(i.e. Go `strings.Contains(s, sep)` for a two-byte `sep`). -/
def hasSep2 (a b : Nat) : GoStr → Bool
  | x :: y :: xs => (decide (x = a) && decide (y = b)) || hasSep2 a b (y :: xs)
  | _ => false

/-- The Go `headers` type: `map[string]string`, modelled as an association
list whose keys stay unique under `hset`. -/
abbrev Headers := List (GoStr × GoStr)

/-- Go map assignment `m[k] = v`: replace the value when the key is present,
append the pair otherwise. -/
def hset (m : Headers) (k v : GoStr) : Headers :=
  if m.any (fun p => p.1 = k) then
    m.map (fun p => if p.1 = k then (k, v) else p)
  else
    m ++ [(k, v)]

/-- Go map read `m[k]`: the stored value, or the zero value `""` when the
key is absent. -/
def hget (m : Headers) (k : GoStr) : GoStr :=
  match m.find? (fun p => p.1 = k) with
  | some p => p.2
  | none => []

/-- The `request` struct of `server.go`. -/
structure request where
  method : GoStr
  path : GoStr
  version : GoStr
  headers : Headers
deriving DecidableEq

/-- The `response` struct of `server.go`. -/
structure response where
  status : GoStr
  headers : Headers
  content : GoStr
deriving DecidableEq

/-- Zero value `response\x7b\x7d` created per connection. -/
def response.zero : response := { status := [], headers := [], content := [] }

/-- Constant `ResponseOK`. -/
def ResponseOK : GoStr := bytes "HTTP/1.1 200 OK"

/-- Constant `ResponseNotFound`. -/
def ResponseNotFound : GoStr := bytes "HTTP/1.1 404 Not Found"

/-- Constant `TypeTextPlain`. -/
def TypeTextPlain : GoStr := bytes "text/plain"

/-- Constant `TypeOctetStream`. -/
def TypeOctetStream : GoStr := bytes "application/octet-stream"

/-- Method test `request.IsGet`. -/
def request.IsGet (r : request) : Bool := r.method = bytes "GET"

/-- Method test `request.IsPost`. -/
def request.IsPost (r : request) : Bool := r.method = bytes "POST"

/-- Decimal rendering of a length, as `fmt.Sprint(len(content))` produces:
the usual base-10 digit string. -/
def goItoa (n : Nat) : GoStr :=
  if n = 0 then [48] else ((Nat.digits 10 n).map (fun d => d + 48)).reverse

/-- Reads a digit string back as a number (most-significant digit first);
used to state that a header value is the decimal form of a length. -/
def decodeDecimal (s : GoStr) : Nat :=
  s.foldl (fun a d => 10 * a + (d - 48)) 0

/-- `parseStartline`: split the start line on `" "`; succeed exactly when
there are three tokens, which become method, path and version. -/
def parseStartline (startLine : GoStr) : Option request :=
  match splitSep1 SPb startLine with
  | [m, p, v] => some { method := m, path := p, version := v, headers := [] }
  | _ => none

/-- Body of the loop of `parseHeaderLines`: split one line on `": "`; when
that yields exactly two parts, record them in the map. -/
def recordHeaderLine (m : Headers) (line : GoStr) : Headers :=
  match splitSep2 COLb SPb line with
  | [k, v] => hset m k v
  | _ => m

/-- `parseHeaderLines`: fold every candidate line through
`recordHeaderLine` (the Go nil-map initialization is the empty map). -/
def parseHeaderLines (headerLines : List GoStr) (req : request) : request :=
  { req with headers := headerLines.foldl recordHeaderLine req.headers }

/-- `connectionToRequest`, given the byte string `string(buf)` of the single
read: split on `"\r\n"`; the first part is the start line, every remaining
part is a candidate header line.  (`strings.Split` never returns an empty
slice, so the `len(parts) == 0` error branch is unreachable; it is kept.) -/
def connectionToRequest (buf : GoStr) : Option request :=
  match splitSep2 CRb LFb buf with
  | [] => none
  | startLine :: headerLines =>
    match parseStartline startLine with
    | none => none
    | some req => some (parseHeaderLines headerLines req)

/-- Go `strings.CutPrefix(s, pre)`: `some rest` when `s = pre ++ rest`,
`none` otherwise. -/
def cutPref : GoStr → GoStr → Option GoStr
  | s, [] => some s
  | [], _ :: _ => none
  | x :: xs, p :: ps => if x = p then cutPref xs ps else none

/-- `fmt.Sprintf("%s/%s", directory, p)`. -/
def filePath (dir p : GoStr) : GoStr := dir ++ bytes "/" ++ p

/-- `responseContent`: set status OK, `Content-Type`, `Content-Length`
(decimal byte length of the content) and the content itself.  The Go
nil-check only allocates the map, which the list model needs not do. -/
def responseContent (res : response) (content contentType : GoStr) : response :=
  { status := ResponseOK
    headers :=
      hset (hset res.headers (bytes "Content-Type") contentType)
        (bytes "Content-Length") (goItoa content.length)
    content := content }

/-- `handleGetRequest`, with the filesystem `fs` (path → contents, `none`
on any read error) and the `directory` flag passed explicitly. -/
def handleGetRequest (fs : GoStr → Option GoStr) (dir : GoStr)
    (req : request) (res : response) : response :=
  if req.path = bytes "/" then
    { res with status := ResponseOK }
  else if req.path = bytes "/user-agent" then
    responseContent res (hget req.headers (bytes "User-Agent")) TypeTextPlain
  else
    match cutPref req.path (bytes "/echo/") with
    | some p => responseContent res p TypeTextPlain
    | none =>
      match cutPref req.path (bytes "/files/") with
      | some p =>
        match fs (filePath dir p) with
        | some contents => responseContent res contents TypeOctetStream
        | none => { res with status := ResponseNotFound }
      | none => { res with status := ResponseNotFound }

/-- The dispatch switch of `handleConnection`: GET requests go to
`handleGetRequest`, everything else becomes status `ResponseNotFound`. -/
def routeRequest (fs : GoStr → Option GoStr) (dir : GoStr)
    (req : request) : response :=
  if req.IsGet then handleGetRequest fs dir req response.zero
  else { response.zero with status := ResponseNotFound }

/-- One header line `"k: v\r\n"` as emitted by `WriteToConn`. -/
def hdrLine (p : GoStr × GoStr) : GoStr :=
  p.1 ++ bytes ": " ++ p.2 ++ [CRb, LFb]

/-- `response.WriteToConn`: the byte string emitted by the successive
`conn.Write` calls (status line, header lines, blank line, then the
content followed by `"\r\n"` when non-empty). -/
def writeToConn (res : response) : GoStr :=
  res.status ++ [CRb, LFb]
    ++ (res.headers.map hdrLine).flatten
    ++ [CRb, LFb]
    ++ (if res.content.length > 0 then res.content ++ [CRb, LFb] else [])

/-- `handleConnection`, given the byte string of the single read: `none`
when parsing fails (the connection is closed with no bytes written),
otherwise the full response byte string written back. -/
def handleConnection (fs : GoStr → Option GoStr) (dir : GoStr)
    (buf : GoStr) : Option GoStr :=
  match connectionToRequest buf with
  | none => none
  | some req => some (writeToConn (routeRequest fs dir req))

/-- Modelled from the spec: the serializer contract of §4.3, stated in the
spec's own terms — status line then `"\r\n"`, each header pair once as
`"Name: Value\r\n"`, a blank line, and, iff the content is non-empty, the
content bytes followed by `"\r\n"`. -/
def specSerialize (res : response) : GoStr :=
  res.status ++ [CRb, LFb]
    ++ res.headers.foldr (fun p acc => p.1 ++ bytes ": " ++ p.2 ++ [CRb, LFb] ++ acc) []
    ++ [CRb, LFb]
    ++ (if res.content ≠ [] then res.content ++ [CRb, LFb] else [])

/-- A filesystem with no readable files. -/
def fsEmpty : GoStr → Option GoStr := fun _ => none

/-! Basic lemmas about the split functions. -/

theorem splitSep1_ne_nil (c : Nat) (s : GoStr) : splitSep1 c s ≠ [] := by
  cases s with
  | nil => simp [splitSep1]
  | cons x xs =>
    unfold splitSep1
    split
    · simp
    · split <;> simp

theorem splitSep1_not_mem (c : Nat) : ∀ s : GoStr, c ∉ s → splitSep1 c s = [s]
  | [], _ => rfl
  | x :: xs, h => by
    have hx : ¬ x = c := by
      intro hc
      exact h (hc ▸ List.mem_cons_self x xs)
    have ih := splitSep1_not_mem c xs (fun hm => h (List.mem_cons_of_mem _ hm))
    simp [splitSep1, hx, ih]

theorem splitSep1_append (c : Nat) : ∀ (xs ys : GoStr), c ∉ xs →
    splitSep1 c (xs ++ c :: ys) = xs :: splitSep1 c ys
  | [], ys, _ => by simp [splitSep1]
  | x :: xs, ys, h => by
    have hx : ¬ x = c := by
      intro hc
      exact h (hc ▸ List.mem_cons_self x xs)
    have ih := splitSep1_append c xs ys (fun hm => h (List.mem_cons_of_mem _ hm))
    simp [splitSep1, hx, ih]

theorem splitSep2_ne_nil (a b : Nat) (s : GoStr) : splitSep2 a b s ≠ [] := by
  match s with
  | [] => simp [splitSep2]
  | [x] => simp [splitSep2]
  | x :: y :: xs =>
    unfold splitSep2
    split
    · simp
    · split <;> simp

theorem hasSep2_cons_elim (a b x : Nat) (s : GoStr)
    (h : hasSep2 a b (x :: s) = false) : hasSep2 a b s = false := by
  cases s with
  | nil => rfl
  | cons y ys =>
    revert h
    simp [hasSep2]
    try tauto

theorem hasSep2_not_mem (a b : Nat) : ∀ s : GoStr, b ∉ s → hasSep2 a b s = false
  | [], _ => rfl
  | [_], _ => rfl
  | x :: y :: xs, h => by
    have hy : ¬ y = b := by
      intro hc
      exact h (by simp [hc])
    have ih := hasSep2_not_mem a b (y :: xs) (fun hm => h (List.mem_cons_of_mem _ hm))
    simp [hasSep2, hy, ih]

theorem splitSep2_not_has (a b : Nat) : ∀ s : GoStr, hasSep2 a b s = false →
    splitSep2 a b s = [s]
  | [], _ => rfl
  | [_], _ => rfl
  | x :: y :: xs, h => by
    have h1 : ¬ (x = a ∧ y = b) := by
      revert h
      simp [hasSep2]
      try tauto
    have h2 : hasSep2 a b (y :: xs) = false := by
      revert h
      simp [hasSep2]
      try tauto
    have ih := splitSep2_not_has a b (y :: xs) h2
    simp [splitSep2, h1, ih]

theorem splitSep2_append (a b : Nat) (hab : a ≠ b) :
    ∀ (k v : GoStr), hasSep2 a b k = false →
    splitSep2 a b (k ++ a :: b :: v) = k :: splitSep2 a b v
  | [], v, _ => by simp [splitSep2]
  | [x], v, _ => by
    have h1 : ¬ (x = a ∧ a = b) := fun hc => hab hc.2
    have t : splitSep2 a b (a :: b :: v) = [] :: splitSep2 a b v := by
      simp [splitSep2]
    simp [splitSep2, h1, t]
  | x :: y :: k, v, h => by
    have h1 : ¬ (x = a ∧ y = b) := by
      revert h
      simp [hasSep2]
      try tauto
    have h2 : hasSep2 a b (y :: k) = false := by
      revert h
      simp [hasSep2]
      try tauto
    have ih := splitSep2_append a b hab (y :: k) v h2
    simp only [List.cons_append] at ih ⊢
    simp [splitSep2, h1, ih]

theorem cutPref_append : ∀ (pre rest : GoStr), cutPref (pre ++ rest) pre = some rest
  | [], _ => by simp [cutPref]
  | p :: ps, rest => by simp [cutPref, cutPref_append ps rest]

/-! Lemmas about the header map model. -/

theorem find?_map_replace (m : Headers) (k v : GoStr)
    (h : m.any (fun p => p.1 = k) = true) :
    (m.map (fun p => if p.1 = k then (k, v) else p)).find? (fun p => p.1 = k)
      = some (k, v) := by
  induction m with
  | nil => simp at h
  | cons p m ih =>
    by_cases hp : p.1 = k
    · simp [hp]
    · have h2 : m.any (fun q => q.1 = k) = true := by
        simp only [List.any_cons] at h
        simpa [hp] using h
      simp [hp, ih h2]

theorem find?_append_single (m : Headers) (k v : GoStr)
    (h : m.any (fun p => p.1 = k) = false) :
    (m ++ [(k, v)]).find? (fun p => p.1 = k) = some (k, v) := by
  induction m with
  | nil => simp
  | cons p m ih =>
    simp only [List.any_cons, Bool.or_eq_false_iff] at h
    have hp : ¬ p.1 = k := by simpa using h.1
    simp [hp, ih h.2]

theorem hget_hset_self (m : Headers) (k v : GoStr) : hget (hset m k v) k = v := by
  unfold hget hset
  by_cases h : m.any (fun p => p.1 = k) = true
  · simp only [h, if_true, find?_map_replace m k v h]
  · have h' : m.any (fun p => p.1 = k) = false := by
      cases hb : m.any (fun p => p.1 = k)
      · rfl
      · exact absurd hb h
    simp only [h', Bool.false_eq_true, if_false, find?_append_single m k v h']

theorem hset_of_not_mem (m : Headers) (k v : GoStr)
    (h : ∀ p ∈ m, p.1 ≠ k) : hset m k v = m ++ [(k, v)] := by
  unfold hset
  have h' : m.any (fun p => p.1 = k) = false := by
    simp only [List.any_eq_false, decide_eq_true_eq]
    exact h
  simp [h']

theorem hget_of_not_mem (m : Headers) (k : GoStr)
    (h : ∀ p ∈ m, p.1 ≠ k) : hget m k = [] := by
  unfold hget
  have h' : m.find? (fun p => p.1 = k) = none := by
    simp only [List.find?_eq_none, decide_eq_true_eq]
    exact h
  simp [h']

/-! Decimal rendering lemmas. -/

theorem decodeDecimal_rev_map (l : List Nat) :
    decodeDecimal ((l.map (fun d => d + 48)).reverse) = Nat.ofDigits 10 l := by
  induction l with
  | nil => simp [decodeDecimal, Nat.ofDigits_nil]
  | cons x l ih =>
    simp only [List.map_cons, List.reverse_cons, decodeDecimal, List.foldl_append,
      List.foldl_cons, List.foldl_nil, Nat.ofDigits_cons]
    unfold decodeDecimal at ih
    rw [ih]
    omega

theorem decodeDecimal_goItoa (n : Nat) : decodeDecimal (goItoa n) = n := by
  by_cases h : n = 0
  · subst h
    decide
  · unfold goItoa
    rw [if_neg h, decodeDecimal_rev_map, Nat.ofDigits_digits]

/-! Start-line parser lemmas. -/

theorem parseStartline_exact (M P V : GoStr)
    (hM : SPb ∉ M) (hP : SPb ∉ P) (hV : SPb ∉ V) :
    parseStartline (M ++ SPb :: (P ++ SPb :: V))
      = some { method := M, path := P, version := V, headers := [] } := by
  unfold parseStartline
  rw [splitSep1_append SPb M _ hM, splitSep1_append SPb P _ hP,
    splitSep1_not_mem SPb V hV]

theorem parseStartline_none_iff (s : GoStr) :
    parseStartline s = none ↔ (splitSep1 SPb s).length ≠ 3 := by
  unfold parseStartline
  rcases h : splitSep1 SPb s with _ | ⟨a, _ | ⟨b, _ | ⟨c, _ | ⟨d, tl⟩⟩⟩⟩ <;> simp

theorem parseStartline_headers (s : GoStr) (r : request)
    (h : parseStartline s = some r) : r.headers = [] := by
  unfold parseStartline at h
  split at h
  · injection h with h2
    subst h2
    rfl
  · cases h

/-! Connection-level parser lemmas. -/

theorem connectionToRequest_eq (buf s : GoStr) (hl : List GoStr) (r : request)
    (hsplit : splitSep2 CRb LFb buf = s :: hl)
    (hstart : parseStartline s = some r) :
    connectionToRequest buf = some (parseHeaderLines hl r) := by
  simp only [connectionToRequest, hsplit, hstart]

theorem connectionToRequest_none_iff (buf : GoStr) :
    connectionToRequest buf = none ↔
      (splitSep1 SPb ((splitSep2 CRb LFb buf).headD [])).length ≠ 3 := by
  unfold connectionToRequest
  cases h : splitSep2 CRb LFb buf with
  | nil => exact absurd h (splitSep2_ne_nil _ _ _)
  | cons s hl =>
    dsimp only
    simp only [List.headD_cons]
    cases hps : parseStartline s with
    | none =>
      dsimp only
      exact iff_of_true rfl ((parseStartline_none_iff s).mp hps)
    | some r =>
      dsimp only
      constructor
      · intro hc
        cases hc
      · intro hlen
        rw [(parseStartline_none_iff s).mpr hlen] at hps
        cases hps

/-! Response-builder lemmas. -/

theorem responseContent_eq (res : response) (h : res.headers = [])
    (c ct : GoStr) :
    responseContent res c ct =
      { status := ResponseOK
        headers := [(bytes "Content-Type", ct),
                    (bytes "Content-Length", goItoa c.length)]
        content := c } := by
  unfold responseContent
  rw [h]
  have h1 : hset [] (bytes "Content-Type") ct = [(bytes "Content-Type", ct)] := rfl
  rw [h1]
  have h2 : hset [(bytes "Content-Type", ct)] (bytes "Content-Length")
      (goItoa c.length)
      = [(bytes "Content-Type", ct), (bytes "Content-Length", goItoa c.length)] := by
    have := hset_of_not_mem [(bytes "Content-Type", ct)] (bytes "Content-Length")
      (goItoa c.length) (by
        intro p hp
        simp only [List.mem_singleton] at hp
        subst hp
        exact (by decide : bytes "Content-Type" ≠ bytes "Content-Length"))
    simpa using this
  rw [h2]

/-! Router lemmas shared by the route claims. -/

theorem routeRequest_get (fs : GoStr → Option GoStr) (dir : GoStr)
    (req : request) (hm : req.method = bytes "GET") :
    routeRequest fs dir req = handleGetRequest fs dir req response.zero := by
  unfold routeRequest
  have hg : req.IsGet = true := by
    simp [request.IsGet, hm]
  simp [hg]

theorem routeRequest_echo (fs : GoStr → Option GoStr) (dir : GoStr)
    (req : request) (x : GoStr)
    (hm : req.method = bytes "GET") (hp : req.path = bytes "/echo/" ++ x) :
    routeRequest fs dir req =
      { status := ResponseOK
        headers := [(bytes "Content-Type", TypeTextPlain),
                    (bytes "Content-Length", goItoa x.length)]
        content := x } := by
  rw [routeRequest_get fs dir req hm]
  unfold handleGetRequest
  have h1 : ¬ req.path = bytes "/" := by
    rw [hp]
    intro hc
    have hlen := congrArg List.length hc
    rw [List.length_append] at hlen
    rw [show (bytes "/echo/").length = 6 from by decide,
      show (bytes "/").length = 1 from by decide] at hlen
    omega
  have h2 : ¬ req.path = bytes "/user-agent" := by
    rw [hp, show bytes "/echo/" = 47 :: 101 :: bytes "cho/" from by decide,
      show bytes "/user-agent" = 47 :: 117 :: bytes "ser-agent" from by decide]
    intro hc
    simp at hc
  have h3 : cutPref req.path (bytes "/echo/") = some x := by
    rw [hp]
    exact cutPref_append _ _
  rw [if_neg h1, if_neg h2, h3]
  exact responseContent_eq response.zero rfl x TypeTextPlain

theorem routeRequest_user_agent (fs : GoStr → Option GoStr) (dir : GoStr)
    (req : request) (hm : req.method = bytes "GET")
    (hp : req.path = bytes "/user-agent") :
    routeRequest fs dir req =
      { status := ResponseOK
        headers := [(bytes "Content-Type", TypeTextPlain),
                    (bytes "Content-Length",
                      goItoa (hget req.headers (bytes "User-Agent")).length)]
        content := hget req.headers (bytes "User-Agent") } := by
  rw [routeRequest_get fs dir req hm]
  unfold handleGetRequest
  have h1 : ¬ req.path = bytes "/" := by
    rw [hp]
    decide
  rw [if_neg h1, if_pos hp]
  exact responseContent_eq response.zero rfl _ TypeTextPlain

theorem routeRequest_files (fs : GoStr → Option GoStr) (dir : GoStr)
    (req : request) (rest : GoStr)
    (hm : req.method = bytes "GET") (hp : req.path = bytes "/files/" ++ rest) :
    routeRequest fs dir req =
      (match fs (filePath dir rest) with
       | some contents =>
         { status := ResponseOK
           headers := [(bytes "Content-Type", TypeOctetStream),
                       (bytes "Content-Length", goItoa contents.length)]
           content := contents }
       | none => { response.zero with status := ResponseNotFound }) := by
  rw [routeRequest_get fs dir req hm]
  unfold handleGetRequest
  have h1 : ¬ req.path = bytes "/" := by
    rw [hp]
    intro hc
    have hlen := congrArg List.length hc
    rw [List.length_append] at hlen
    rw [show (bytes "/files/").length = 7 from by decide,
      show (bytes "/").length = 1 from by decide] at hlen
    omega
  have h2 : ¬ req.path = bytes "/user-agent" := by
    rw [hp, show bytes "/files/" = 47 :: 102 :: bytes "iles/" from by decide,
      show bytes "/user-agent" = 47 :: 117 :: bytes "ser-agent" from by decide]
    intro hc
    simp at hc
  have h3 : cutPref req.path (bytes "/echo/") = none := by
    rw [hp, show bytes "/files/" = 47 :: 102 :: bytes "iles/" from by decide,
      show bytes "/echo/" = 47 :: 101 :: bytes "cho/" from by decide]
    simp [cutPref]
  have h4 : cutPref req.path (bytes "/files/") = some rest := by
    rw [hp]
    exact cutPref_append _ _
  rw [if_neg h1, if_neg h2, h3, h4]
  dsimp only
  cases hfs : fs (filePath dir rest) with
  | none => rfl
  | some contents =>
    dsimp only
    exact responseContent_eq response.zero rfl contents TypeOctetStream

theorem splitSep2_cons_self (a b : Nat) (v : GoStr) :
    splitSep2 a b (a :: b :: v) = [] :: splitSep2 a b v := by
  simp [splitSep2]

theorem hasSep2_append_left (a b : Nat) : ∀ s : GoStr, hasSep2 a b s = true →
    ∀ t : GoStr, hasSep2 a b (s ++ t) = true
  | [], h, _ => by simp [hasSep2] at h
  | [x], h, _ => by simp [hasSep2] at h
  | x :: y :: xs, h, t => by
    simp only [hasSep2, Bool.or_eq_true] at h
    rcases h with h | h
    · simp only [List.cons_append, hasSep2, h]
      simp
    · have ih := hasSep2_append_left a b (y :: xs) h t
      simp only [List.cons_append] at ih ⊢
      simp only [hasSep2, ih]
      simp

theorem parseHeaderLines_nil (r : request) : parseHeaderLines [] r = r := rfl

theorem foldl_record_pairs : ∀ (pairs acc : Headers),
    (∀ p ∈ pairs, hasSep2 COLb SPb p.1 = false ∧ hasSep2 COLb SPb p.2 = false) →
    pairs.Pairwise (fun p q => p.1 ≠ q.1) →
    (∀ q ∈ pairs, ∀ r ∈ acc, r.1 ≠ q.1) →
    List.foldl recordHeaderLine acc
      (pairs.map (fun p => p.1 ++ COLb :: SPb :: p.2)) = acc ++ pairs
  | [], acc, _, _, _ => by simp
  | p :: ps, acc, hwf, hdist, hdisj => by
    simp only [List.map_cons, List.foldl_cons]
    have hw := hwf p (List.mem_cons_self p ps)
    have hsp : splitSep2 COLb SPb (p.1 ++ COLb :: SPb :: p.2) = [p.1, p.2] := by
      rw [splitSep2_append COLb SPb (by decide) p.1 p.2 hw.1,
        splitSep2_not_has _ _ _ hw.2]
    have hrec : recordHeaderLine acc (p.1 ++ COLb :: SPb :: p.2) = acc ++ [p] := by
      unfold recordHeaderLine
      rw [hsp]
      dsimp only
      have hs := hset_of_not_mem acc p.1 p.2
        (fun r hr => hdisj p (List.mem_cons_self p ps) r hr)
      rw [hs]
    rw [hrec]
    have hpair := List.pairwise_cons.mp hdist
    have ih := foldl_record_pairs ps (acc ++ [p])
      (fun q hq => hwf q (List.mem_cons_of_mem p hq))
      hpair.2
      (by
        intro q hq r hr
        rcases List.mem_append.mp hr with hr | hr
        · exact hdisj q (List.mem_cons_of_mem p hq) r hr
        · simp only [List.mem_singleton] at hr
          subst hr
          exact hpair.1 q hq)
    rw [ih]
    simp

/-! Claim theorems. -/

/-- Claim C3: for every start line of the form `M P V` (terminator already
stripped by the `\x0d\n` split) where `M`, `P`, `V` contain no spaces, the
parser yields exactly method `M`, path `P`, version `V`; and the parse
fails if and only if splitting the start line on single spaces does not
give exactly three tokens. -/
theorem C3_startline_exact :
    (∀ M P V : GoStr, SPb ∉ M → SPb ∉ P → SPb ∉ V →
      parseStartline (M ++ SPb :: (P ++ SPb :: V))
        = some { method := M, path := P, version := V, headers := [] })
    ∧ ∀ s : GoStr, parseStartline s = none ↔ (splitSep1 SPb s).length ≠ 3 :=
  ⟨fun M P V hM hP hV => parseStartline_exact M P V hM hP hV,
   fun s => parseStartline_none_iff s⟩

/-- Witness for C3 at the concrete start line `GET / HTTP/1.1`. -/
theorem C3_startline_exact_w :
    parseStartline (bytes "GET" ++ SPb :: (bytes "/" ++ SPb :: bytes "HTTP/1.1"))
      = some { method := bytes "GET", path := bytes "/",
               version := bytes "HTTP/1.1", headers := [] } :=
  C3_startline_exact.1 (bytes "GET") (bytes "/") (bytes "HTTP/1.1")
    (by decide) (by decide) (by decide)

/-- Claim C5: for every content `C` (an arbitrary byte sequence, so also
bytes that are not valid text characters), the content-response helper sets
a `Content-Length` header equal to the exact byte length of `C` as a
decimal string (reading the digit string back yields `C.length`). -/
theorem C5_content_length_exact (res : response) (C ct : GoStr) :
    hget (responseContent res C ct).headers (bytes "Content-Length")
        = goItoa C.length
    ∧ decodeDecimal (goItoa C.length) = C.length := by
  constructor
  · unfold responseContent
    exact hget_hset_self _ _ _
  · exact decodeDecimal_goItoa _

/-- Claim C6: the serializer emits exactly the status line followed by
`\x0d\n`, each header pair once as `Name: Value` followed by `\x0d\n`, a
blank line, and — iff the content is non-empty — the content bytes followed
by `\x0d\n` (`specSerialize` states that format in the spec's terms). -/
theorem C6_serializer_format (res : response) : writeToConn res = specSerialize res := by
  unfold writeToConn specSerialize
  have hh : (res.headers.map hdrLine).flatten
      = res.headers.foldr
          (fun p acc => p.1 ++ bytes ": " ++ p.2 ++ [CRb, LFb] ++ acc) [] := by
    induction res.headers with
    | nil => rfl
    | cons p hs ih => simp [hdrLine, ih, List.append_assoc]
  rw [hh]
  by_cases hc : res.content = []
  · simp [hc]
  · have hlen : res.content.length > 0 := List.length_pos.mpr hc
    simp [hc, hlen]

/-- Claim C7: a GET request whose path is `/files/` followed by `rest` makes
the server read the file `dir/rest`; on success it answers an
`application/octet-stream` content response whose body is the file bytes,
on any read failure the status-only not-found response. -/
theorem C7_files_get_route (fs : GoStr → Option GoStr) (dir : GoStr)
    (req : request) (rest : GoStr)
    (hm : req.method = bytes "GET") (hp : req.path = bytes "/files/" ++ rest) :
    routeRequest fs dir req =
      (match fs (filePath dir rest) with
       | some contents =>
         { status := ResponseOK
           headers := [(bytes "Content-Type", TypeOctetStream),
                       (bytes "Content-Length", goItoa contents.length)]
           content := contents }
       | none => { response.zero with status := ResponseNotFound }) :=
  routeRequest_files fs dir req rest hm hp

/-- Witness for C7 at a concrete request over an empty filesystem: the read
fails and the response is not-found. -/
theorem C7_files_get_route_w :
    routeRequest fsEmpty (bytes "d")
      { method := bytes "GET", path := bytes "/files/a",
        version := bytes "HTTP/1.1", headers := [] }
      = { response.zero with status := ResponseNotFound } := by
  have h := C7_files_get_route fsEmpty (bytes "d")
    { method := bytes "GET", path := bytes "/files/a",
      version := bytes "HTTP/1.1", headers := [] }
    (bytes "a") (by decide) (by decide)
  rw [h]
  rfl

/-- Claim C8: every GET request for `/echo/` followed by `x` produces the
OK text-plain content response whose body is exactly `x`, and any repeated
request with the same path yields the identical response. -/
theorem C8_echo_ok_and_repeatable (fs fs2 : GoStr → Option GoStr)
    (dir dir2 : GoStr) (req req2 : request) (x : GoStr)
    (hm : req.method = bytes "GET") (hp : req.path = bytes "/echo/" ++ x)
    (hm2 : req2.method = bytes "GET") (hp2 : req2.path = bytes "/echo/" ++ x) :
    routeRequest fs dir req =
      { status := ResponseOK
        headers := [(bytes "Content-Type", TypeTextPlain),
                    (bytes "Content-Length", goItoa x.length)]
        content := x }
    ∧ routeRequest fs2 dir2 req2 = routeRequest fs dir req := by
  have h1 := routeRequest_echo fs dir req x hm hp
  have h2 := routeRequest_echo fs2 dir2 req2 x hm2 hp2
  exact ⟨h1, by rw [h1, h2]⟩

/-- Witness for C8 at the concrete path `/echo/abc`. -/
theorem C8_echo_ok_and_repeatable_w :
    routeRequest fsEmpty []
      { method := bytes "GET", path := bytes "/echo/abc",
        version := bytes "HTTP/1.1", headers := [] } =
      { status := ResponseOK
        headers := [(bytes "Content-Type", TypeTextPlain),
                    (bytes "Content-Length", goItoa (bytes "abc").length)]
        content := bytes "abc" } :=
  (C8_echo_ok_and_repeatable fsEmpty fsEmpty [] []
    { method := bytes "GET", path := bytes "/echo/abc",
      version := bytes "HTTP/1.1", headers := [] }
    { method := bytes "GET", path := bytes "/echo/abc",
      version := bytes "HTTP/1.1", headers := [] }
    (bytes "abc") (by decide) (by decide) (by decide) (by decide)).1

/-- Claim C9: a GET request for exactly `/user-agent` whose header map has
no `User-Agent` entry gets status OK, `Content-Type` text-plain,
`Content-Length` `0`, and an empty body. -/
theorem C9_user_agent_missing_empty_ok (fs : GoStr → Option GoStr) (dir : GoStr)
    (req : request) (hm : req.method = bytes "GET")
    (hp : req.path = bytes "/user-agent")
    (hua : ∀ p ∈ req.headers, p.1 ≠ bytes "User-Agent") :
    routeRequest fs dir req =
      { status := ResponseOK
        headers := [(bytes "Content-Type", TypeTextPlain),
                    (bytes "Content-Length", bytes "0")]
        content := [] } := by
  have h := routeRequest_user_agent fs dir req hm hp
  rw [hget_of_not_mem req.headers (bytes "User-Agent") hua] at h
  rw [h]
  rfl

/-- Witness for C9 at a concrete request with an empty header map. -/
theorem C9_user_agent_missing_empty_ok_w :
    routeRequest fsEmpty []
      { method := bytes "GET", path := bytes "/user-agent",
        version := bytes "HTTP/1.1", headers := [] } =
      { status := ResponseOK
        headers := [(bytes "Content-Type", TypeTextPlain),
                    (bytes "Content-Length", bytes "0")]
        content := [] } :=
  C9_user_agent_missing_empty_ok fsEmpty []
    { method := bytes "GET", path := bytes "/user-agent",
      version := bytes "HTTP/1.1", headers := [] }
    (by decide) (by decide) (by decide)

/-- Counterexample to C1 as stated: the full 8192-byte zero-padded read
buffer holding `GET / HTTP/1.1` contains no `\x0d\n` at all, yet the
parser succeeds (the whole buffer becomes the start line and splits into
exactly three space tokens) and a complete 200 response is written — not a
`MalformedRequest` failure with no bytes written. -/
theorem C1_no_crlf_still_parses :
    hasSep2 CRb LFb (bytes "GET / HTTP/1.1" ++ List.replicate 8178 0) = false
    ∧ handleConnection fsEmpty [] (bytes "GET / HTTP/1.1" ++ List.replicate 8178 0)
      = some (bytes "HTTP/1.1 200 OK\r\n\r\n") := by
  have hnoLF : LFb ∉ bytes "GET / HTTP/1.1" ++ List.replicate 8178 0 := by
    intro hm
    rcases List.mem_append.mp hm with h | h
    · revert h
      decide
    · exact absurd (List.eq_of_mem_replicate h) (by decide)
  have hno := hasSep2_not_mem CRb LFb _ hnoLF
  refine ⟨hno, ?_⟩
  have hsplit : splitSep2 CRb LFb (bytes "GET / HTTP/1.1" ++ List.replicate 8178 0)
      = [bytes "GET / HTTP/1.1" ++ List.replicate 8178 0] :=
    splitSep2_not_has _ _ _ hno
  have hV : SPb ∉ bytes "HTTP/1.1" ++ List.replicate 8178 0 := by
    intro hm
    rcases List.mem_append.mp hm with h | h
    · revert h
      decide
    · exact absurd (List.eq_of_mem_replicate h) (by decide)
  have hform : bytes "GET / HTTP/1.1" ++ List.replicate 8178 0
      = bytes "GET" ++ SPb ::
          (bytes "/" ++ SPb :: (bytes "HTTP/1.1" ++ List.replicate 8178 0)) := by
    rw [show bytes "GET / HTTP/1.1"
        = bytes "GET" ++ SPb :: (bytes "/" ++ SPb :: bytes "HTTP/1.1") from by decide]
    simp only [List.append_assoc, List.cons_append]
  have hstart := parseStartline_exact (bytes "GET") (bytes "/")
    (bytes "HTTP/1.1" ++ List.replicate 8178 0) (by decide) (by decide) hV
  rw [← hform] at hstart
  have hconn := connectionToRequest_eq _ _ [] _ hsplit hstart
  rw [handleConnection, hconn]
  rfl

/-- Claim C1 amended: parsing fails if and only if the text before the
first `\x0d\n` (the whole buffer when none is present) does not split on
single spaces into exactly three tokens — neither delimiter is actually
required — and when parsing does fail, no response bytes are written. -/
theorem C1_parse_failure_iff_token_count (buf : GoStr)
    (fs : GoStr → Option GoStr) (dir : GoStr) :
    (connectionToRequest buf = none ↔
      (splitSep1 SPb ((splitSep2 CRb LFb buf).headD [])).length ≠ 3)
    ∧ (connectionToRequest buf = none → handleConnection fs dir buf = none) := by
  refine ⟨connectionToRequest_none_iff buf, fun h => ?_⟩
  unfold handleConnection
  rw [h]

/-- Witness for C1 amended at the buffer `XYZ` (one token, so the parse
fails and nothing is written). -/
theorem C1_parse_failure_iff_token_count_w :
    handleConnection fsEmpty [] (bytes "XYZ") = none :=
  (C1_parse_failure_iff_token_count (bytes "XYZ") fsEmpty []).2 (by decide)

/-- Counterexample to C2 as stated: Scenario E's own POST request (in its
full zero-padded read buffer) is answered with `HTTP/1.1 404 Not Found` —
not `201 Created` — because the dispatch switch only handles GET; no file
route runs for POST. -/
theorem C2_post_files_gets_not_found :
    handleConnection fsEmpty []
      (bytes "POST /files/out.txt HTTP/1.1\r\nContent-Length: 5\r\n\r\nhello"
        ++ List.replicate 8136 0)
      = some (bytes "HTTP/1.1 404 Not Found\r\n\r\n") := by
  have hnoLF : LFb ∉ bytes "hello" ++ List.replicate 8136 0 := by
    intro hm
    rcases List.mem_append.mp hm with h | h
    · revert h
      decide
    · exact absurd (List.eq_of_mem_replicate h) (by decide)
  have hbody := hasSep2_not_mem CRb LFb _ hnoLF
  have hform : bytes "POST /files/out.txt HTTP/1.1\r\nContent-Length: 5\r\n\r\nhello"
        ++ List.replicate 8136 0
      = bytes "POST /files/out.txt HTTP/1.1" ++ CRb :: LFb ::
          (bytes "Content-Length: 5" ++ CRb :: LFb ::
            (CRb :: LFb :: (bytes "hello" ++ List.replicate 8136 0))) := by
    rw [show bytes "POST /files/out.txt HTTP/1.1\r\nContent-Length: 5\r\n\r\nhello"
        = bytes "POST /files/out.txt HTTP/1.1" ++ CRb :: LFb ::
            (bytes "Content-Length: 5" ++ CRb :: LFb ::
              (CRb :: LFb :: bytes "hello")) from by decide]
    simp only [List.append_assoc, List.cons_append]
  have hsplit : splitSep2 CRb LFb
      (bytes "POST /files/out.txt HTTP/1.1\r\nContent-Length: 5\r\n\r\nhello"
        ++ List.replicate 8136 0)
      = [bytes "POST /files/out.txt HTTP/1.1", bytes "Content-Length: 5", [],
         bytes "hello" ++ List.replicate 8136 0] := by
    rw [hform]
    rw [splitSep2_append CRb LFb (by decide) (bytes "POST /files/out.txt HTTP/1.1")
      _ (by decide)]
    rw [splitSep2_append CRb LFb (by decide) (bytes "Content-Length: 5")
      _ (by decide)]
    rw [splitSep2_cons_self, splitSep2_not_has _ _ _ hbody]
  have hstart : parseStartline (bytes "POST /files/out.txt HTTP/1.1")
      = some { method := bytes "POST", path := bytes "/files/out.txt",
               version := bytes "HTTP/1.1", headers := [] } := by decide
  have hconn := connectionToRequest_eq _ _ _ _ hsplit hstart
  rw [handleConnection, hconn]
  rfl

/-- Claim C2 amended: every request whose method is POST — `/files/` paths
included — is answered by the status-only not-found response; no
file-writing route exists in the dispatch. -/
theorem C2_post_requests_not_found (fs : GoStr → Option GoStr) (dir : GoStr) :
    (∀ req : request, req.method = bytes "POST" →
      routeRequest fs dir req = { response.zero with status := ResponseNotFound })
    ∧ (∀ (buf : GoStr) (req : request), connectionToRequest buf = some req →
      req.method = bytes "POST" →
      handleConnection fs dir buf = some (bytes "HTTP/1.1 404 Not Found\r\n\r\n")) := by
  have hroute : ∀ req : request, req.method = bytes "POST" →
      routeRequest fs dir req = { response.zero with status := ResponseNotFound } := by
    intro req hm
    unfold routeRequest
    have hg : req.IsGet = false := by
      simp [request.IsGet, hm]
      decide
    simp [hg]
  refine ⟨hroute, fun buf req hc hm => ?_⟩
  unfold handleConnection
  rw [hc]
  dsimp only
  rw [hroute req hm]
  rfl

/-- Witness for C2 amended at a concrete POST request buffer. -/
theorem C2_post_requests_not_found_w :
    handleConnection fsEmpty [] (bytes "POST / HTTP/1.1\r\n\r\n")
      = some (bytes "HTTP/1.1 404 Not Found\r\n\r\n") :=
  (C2_post_requests_not_found fsEmpty []).2 (bytes "POST / HTTP/1.1\r\n\r\n")
    { method := bytes "POST", path := bytes "/",
      version := bytes "HTTP/1.1", headers := [] }
    (by decide) (by decide)

/-- Counterexample to C4 as stated: the line `X: a: b` splits on `": "`
into three parts (the split is on every occurrence, not the first one), so
nothing is recorded — whereas splitting on the first occurrence would have
recorded the pair (`X`, `a: b`). -/
theorem C4_double_colon_space_line_skipped :
    (splitSep2 COLb SPb (bytes "X: a: b")).length = 3
    ∧ parseHeaderLines [bytes "X: a: b"]
        { method := [], path := [], version := [], headers := [] }
      = { method := [], path := [], version := [], headers := [] } := by
  decide

/-- Claim C4 amended: each candidate line is split on every occurrence of
`": "`; a pair is recorded iff that split yields exactly two parts, and a
header section made only of well-formed `Name: Value` lines with distinct
names yields exactly those pairs. -/
theorem C4_header_record_rule :
    (∀ (req : request) (line k v : GoStr), splitSep2 COLb SPb line = [k, v] →
      parseHeaderLines [line] req = { req with headers := hset req.headers k v })
    ∧ (∀ (req : request) (line : GoStr), (splitSep2 COLb SPb line).length ≠ 2 →
      parseHeaderLines [line] req = req)
    ∧ (∀ pairs : Headers,
      (∀ p ∈ pairs, hasSep2 COLb SPb p.1 = false ∧ hasSep2 COLb SPb p.2 = false) →
      pairs.Pairwise (fun p q => p.1 ≠ q.1) →
      ∀ req : request, req.headers = [] →
      (parseHeaderLines (pairs.map (fun p => p.1 ++ COLb :: SPb :: p.2)) req).headers
        = pairs) := by
  refine ⟨?_, ?_, ?_⟩
  · intro req line k v hkv
    unfold parseHeaderLines
    simp only [List.foldl_cons, List.foldl_nil]
    unfold recordHeaderLine
    rw [hkv]
  · intro req line hlen
    unfold parseHeaderLines
    simp only [List.foldl_cons, List.foldl_nil]
    unfold recordHeaderLine
    rcases hs : splitSep2 COLb SPb line with _ | ⟨a, _ | ⟨b, _ | ⟨c, tl⟩⟩⟩
    · rfl
    · rfl
    · rw [hs] at hlen
      simp at hlen
    · rfl
  · intro pairs hwf hdist req hreq
    unfold parseHeaderLines
    dsimp only
    rw [hreq]
    rw [foldl_record_pairs pairs [] hwf hdist (by simp)]
    simp

/-- Witness for C4 amended: the well-formed line `A: b` records the pair,
a duplicated-separator line records nothing. -/
theorem C4_header_record_rule_w :
    parseHeaderLines [bytes "A: b"]
        { method := [], path := [], version := [], headers := [] }
      = { method := [], path := [], version := [],
          headers := [(bytes "A", bytes "b")] } :=
  (C4_header_record_rule.1
    { method := [], path := [], version := [], headers := [] }
    (bytes "A: b") (bytes "A") (bytes "b") (by decide)).trans (by decide)

/-- Counterexample to C10 as stated: the padded buffer whose body (after
the blank-line terminator) is the line `a: b: c` — a line that does contain
`": "` — parses with an empty header map: the body line is not entered,
because it splits into three parts rather than two. -/
theorem C10_body_line_two_seps_not_recorded :
    hasSep2 COLb SPb (bytes "a: b: c" ++ List.replicate 8167 0) = true
    ∧ connectionToRequest (bytes "GET / HTTP/1.1\r\n\r\na: b: c"
        ++ List.replicate 8167 0)
      = some { method := bytes "GET", path := bytes "/",
               version := bytes "HTTP/1.1", headers := [] } := by
  constructor
  · exact hasSep2_append_left COLb SPb (bytes "a: b: c") (by decide) _
  · have hnoLF : LFb ∉ bytes "a: b: c" ++ List.replicate 8167 0 := by
      intro hm
      rcases List.mem_append.mp hm with h | h
      · revert h
        decide
      · exact absurd (List.eq_of_mem_replicate h) (by decide)
    have hbody := hasSep2_not_mem CRb LFb _ hnoLF
    have hform : bytes "GET / HTTP/1.1\r\n\r\na: b: c" ++ List.replicate 8167 0
        = bytes "GET / HTTP/1.1" ++ CRb :: LFb ::
            (CRb :: LFb :: (bytes "a: b: c" ++ List.replicate 8167 0)) := by
      rw [show bytes "GET / HTTP/1.1\r\n\r\na: b: c"
          = bytes "GET / HTTP/1.1" ++ CRb :: LFb ::
              (CRb :: LFb :: bytes "a: b: c") from by decide]
      simp only [List.append_assoc, List.cons_append]
    have hsplit : splitSep2 CRb LFb
        (bytes "GET / HTTP/1.1\r\n\r\na: b: c" ++ List.replicate 8167 0)
        = [bytes "GET / HTTP/1.1", [],
           bytes "a: b: c" ++ List.replicate 8167 0] := by
      rw [hform]
      rw [splitSep2_append CRb LFb (by decide) (bytes "GET / HTTP/1.1") _ (by decide)]
      rw [splitSep2_cons_self, splitSep2_not_has _ _ _ hbody]
    have hstart : parseStartline (bytes "GET / HTTP/1.1")
        = some { method := bytes "GET", path := bytes "/",
                 version := bytes "HTTP/1.1", headers := [] } := by decide
    have hconn := connectionToRequest_eq _ _ _ _ hsplit hstart
    have hnoSP : SPb ∉ bytes "c" ++ List.replicate 8167 0 := by
      intro hm
      rcases List.mem_append.mp hm with h | h
      · revert h
        decide
      · exact absurd (List.eq_of_mem_replicate h) (by decide)
    have hsplitBody : splitSep2 COLb SPb (bytes "a: b: c" ++ List.replicate 8167 0)
        = [bytes "a", bytes "b", bytes "c" ++ List.replicate 8167 0] := by
      rw [show bytes "a: b: c" ++ List.replicate 8167 0
          = bytes "a" ++ COLb :: SPb ::
              (bytes "b" ++ COLb :: SPb ::
                (bytes "c" ++ List.replicate 8167 0)) from by
        rw [show bytes "a: b: c"
            = bytes "a" ++ COLb :: SPb ::
                (bytes "b" ++ COLb :: SPb :: bytes "c") from by decide]
        simp only [List.append_assoc, List.cons_append]]
      rw [splitSep2_append COLb SPb (by decide) (bytes "a") _ (by decide)]
      rw [splitSep2_append COLb SPb (by decide) (bytes "b") _ (by decide)]
      rw [splitSep2_not_has _ _ _ (hasSep2_not_mem COLb SPb _ hnoSP)]
    have hrecGen : ∀ s : GoStr,
        splitSep2 COLb SPb s
          = [bytes "a", bytes "b", bytes "c" ++ List.replicate 8167 0] →
        recordHeaderLine [] s = [] := by
      intro s hs
      unfold recordHeaderLine
      rw [hs]
    have hrec := hrecGen _ hsplitBody
    have hfold : List.foldl recordHeaderLine ([] : Headers)
        [[], bytes "a: b: c" ++ List.replicate 8167 0] = [] := by
      rw [List.foldl_cons, List.foldl_cons, List.foldl_nil]
      rw [show recordHeaderLine ([] : Headers) [] = [] from rfl, hrec]
    have hh0 : ({ method := bytes "GET", path := bytes "/",
                  version := bytes "HTTP/1.1",
                  headers := [] } : request).headers = ([] : Headers) := rfl
    rw [hconn, parseHeaderLines, hh0, hfold]

/-- Claim C10 amended: every `\x0d\n`-delimited segment after the start
line — segments after the blank-line terminator included — is a candidate
header line, and such a segment is entered into the header map iff
splitting it on `": "` yields exactly two parts. -/
theorem C10_all_segments_are_header_candidates :
    (∀ (buf : GoStr) (req : request), connectionToRequest buf = some req →
      req.headers = List.foldl recordHeaderLine [] (splitSep2 CRb LFb buf).tail)
    ∧ (∀ (line k v : GoStr), hasSep2 CRb LFb line = false →
      splitSep2 COLb SPb line = [k, v] →
      connectionToRequest (bytes "GET / HTTP/1.1" ++ CRb :: LFb :: CRb :: LFb :: line)
        = some { method := bytes "GET", path := bytes "/",
                 version := bytes "HTTP/1.1", headers := [(k, v)] }) := by
  constructor
  · intro buf req h
    unfold connectionToRequest at h
    cases hs : splitSep2 CRb LFb buf with
    | nil =>
      rw [hs] at h
      cases h
    | cons s hl =>
      rw [hs] at h
      dsimp only at h
      cases hps : parseStartline s with
      | none =>
        rw [hps] at h
        cases h
      | some r =>
        rw [hps] at h
        dsimp only at h
        injection h with h2
        subst h2
        unfold parseHeaderLines
        dsimp only
        rw [parseStartline_headers s r hps]
        rfl
  · intro line k v hline hkv
    have hsplit : splitSep2 CRb LFb
        (bytes "GET / HTTP/1.1" ++ CRb :: LFb :: CRb :: LFb :: line)
        = [bytes "GET / HTTP/1.1", [], line] := by
      rw [splitSep2_append CRb LFb (by decide) (bytes "GET / HTTP/1.1") _ (by decide)]
      rw [splitSep2_cons_self, splitSep2_not_has _ _ _ hline]
    have hstart : parseStartline (bytes "GET / HTTP/1.1")
        = some { method := bytes "GET", path := bytes "/",
                 version := bytes "HTTP/1.1", headers := [] } := by decide
    have hfold : List.foldl recordHeaderLine ([] : Headers) [[], line]
        = [(k, v)] := by
      simp only [List.foldl_cons, List.foldl_nil]
      rw [show recordHeaderLine ([] : Headers) [] = [] from rfl]
      unfold recordHeaderLine
      rw [hkv]
      rfl
    rw [connectionToRequest_eq _ _ _ _ hsplit hstart]
    unfold parseHeaderLines
    dsimp only
    rw [hfold]

/-- Witness for C10 amended: the body line `a: b` placed after the blank
terminator is entered into the header map. -/
theorem C10_all_segments_are_header_candidates_w :
    connectionToRequest
        (bytes "GET / HTTP/1.1" ++ CRb :: LFb :: CRb :: LFb :: bytes "a: b")
      = some { method := bytes "GET", path := bytes "/",
               version := bytes "HTTP/1.1",
               headers := [(bytes "a", bytes "b")] } :=
  C10_all_segments_are_header_candidates.2 (bytes "a: b") (bytes "a") (bytes "b")
    (by decide) (by decide)

end HttpSrv
